import Mathlib

/-!
# Flow-meter pulse counter firmware: a shallow embedding

This file embeds the control core of `src/main.cpp` (an Arduino sketch that
opens a solenoid valve, counts falling-edge pulses from a flow sensor over a
timed window, and reports the count) and proves the specification's claims
about it.

## Modelling conventions

* Arduino `unsigned long` arithmetic is `Nat` with an explicit `% 2^32`
  (`W32`) wherever the source computes with it (`stoptime`,
  `millis() - lastDebounceTime`).
* The environment is a list of `Tick`s: the values successive `millis()`
  calls return, each paired with the number of sensor falling edges (ISR
  firings of `countPulse`, which does `pulses++`) delivered since the
  previous call.  Each syntactic `millis()` call in the source consumes one
  tick; this is the interleaving granularity of the interrupt with the main
  flow.
* Side effects (display writes, serial prints, pin writes, the pulse-counter
  reset) are recorded in an event trace; each event is stamped with the value
  of the most recent `millis()` reading.
* Running out of ticks makes a routine return `none` (the run is longer than
  the supplied schedule); all claims are about runs that return `some`.
-/

namespace Flowmeter

/-- `2^32`, the modulus of Arduino `unsigned long` arithmetic. -/
def W32 : Nat := 4294967296

/-- `const int flowMeterPin = 2;` -/
def flowMeterPin : Nat := 2

/-- `const int valve = 22;` (the valve output pin). -/
def valvePin : Nat := 22

/-- `const int buttonPin1Second = 8;` -/
def buttonPin1Second : Nat := 8

/-- `const int buttonPin3Second = 9;` -/
def buttonPin3Second : Nat := 9

/-- `const int buttonPin10Second = 10;` -/
def buttonPin10Second : Nat := 10

/-- `const int buttonPin100Second = 11;` -/
def buttonPin100Second : Nat := 11

/-- `unsigned long debounceDelay = 500;` -/
def debounceDelay : Nat := 500

/-- Pin configuration modes used by `setup()`. -/
inductive PMode where
  | inputPullup
  | output
  deriving Repr, DecidableEq

/-- Interrupt edges; the sketch only uses `FALLING`. -/
inductive IEdge where
  | falling
  deriving Repr, DecidableEq

/-- Observable side effects of the sketch.  `valveWrite true` is
`digitalWrite(valve, HIGH)` (valve closed), `valveWrite false` is
`digitalWrite(valve, LOW)` (valve open).  `reset` is `pulses = 0`. -/
inductive Ev where
  | reset
  | display (s : String) (line : Nat)
  | log (s : String)
  | valveWrite (level : Bool)
  | pinMode (pin : Nat) (m : PMode)
  | attach (pin : Nat) (e : IEdge)
  | serialBegin (baud : Nat)
  | lcdInit
  | backlight
  deriving Repr, DecidableEq

/-- A timestamped event. -/
abbrev TEv := Nat × Ev

/-- One clock observation: the value the next `millis()` call returns, and
the number of flow-sensor falling edges (executions of `countPulse`)
delivered since the previous `millis()` call. -/
structure Tick where
  time : Nat
  edges : Nat
  deriving Repr, DecidableEq

/-- Machine state: the globals of the sketch (`pulses`, the valve pin level,
`lastDebounceTime`), the value of the last `millis()` reading (`now`, used to
timestamp events), and the remaining clock schedule. -/
structure St where
  pulses : Nat
  valveLevel : Bool
  lastDebounceTime : Nat
  now : Nat
  clock : List Tick
  deriving Repr, DecidableEq

/-- `millis()`: consume the next tick, delivering its pending sensor edges to
`pulses` (the interrupt handler `countPulse` does `pulses++` per edge). -/
def millis (s : St) : Option (Nat × St) :=
  match s.clock with
  | [] => none
  | t :: rest =>
      some (t.time,
        { s with pulses := s.pulses + t.edges, now := t.time, clock := rest })

/-- 32-bit unsigned subtraction `a - b` (as in
`millis() - lastDebounceTime` and `millis() - startTime`). -/
def usub (a b : Nat) : Nat :=
  (a % W32 + (W32 - b % W32)) % W32

/-- Total number of sensor edges carried by a tick list. -/
def edgeSum (c : List Tick) : Nat :=
  (c.map Tick.edges).sum

/-- `monoClock n c`: the readings in `c` are nondecreasing, start at or after
`n`, and are genuine 32-bit values (below `W32`).  This is what a real
`millis()` source delivers between rollovers. -/
def monoClock : Nat → List Tick → Bool
  | _, [] => true
  | n, t :: ts => decide (n ≤ t.time) && decide (t.time < W32) && monoClock t.time ts

/-- `timeBounded d c`: no reading in `c` is within `d * 1000` ms of the
32-bit rollover, so `startTime + seconds * 1000` never overflows during the
run. -/
def timeBounded (d : Nat) (c : List Tick) : Bool :=
  c.all fun t => decide (t.time + d * 1000 < W32)

/-- The busy-wait of both measurement modes:

```c
while (millis() <= stoptime) {
  if (millis() / 1000 == previousMillis) {
    previousMillis = millis() / 1000;
    Serial.println("Time: " + String(previousMillis) + "s");
  }
}
```

Each of the three syntactic `millis()` calls consumes a tick.  Returns the
reading that exited the loop, the updated `pulses`, the remaining clock, and
the emitted log events. -/
def waitLoop (stoptime : Nat) :
    Nat → Nat → List Tick → Option (Nat × Nat × List Tick × List TEv)
  | _, _, [] => none
  | previousMillis, pulses, t :: rest =>
      let p1 := pulses + t.edges
      if t.time ≤ stoptime then
        match rest with
        | [] => none
        | t2 :: rest2 =>
            let p2 := p1 + t2.edges
            if t2.time / 1000 = previousMillis then
              match rest2 with
              | [] => none
              | t3 :: rest3 =>
                  let p3 := p2 + t3.edges
                  let pm := t3.time / 1000
                  match waitLoop stoptime pm p3 rest3 with
                  | none => none
                  | some (tE, pE, restE, logs) =>
                      some (tE, pE, restE,
                        (t3.time, Ev.log ("Time: " ++ toString pm ++ "s")) :: logs)
            else
              waitLoop stoptime previousMillis p2 rest2
      else
        some (t.time, p1, rest, [])

/-- `runMessurementFull(unsigned long seconds)` from `src/main.cpp`:
reset `pulses`, report the start, read `startTime = millis()`, compute
`stoptime = startTime + seconds * 1000` (32-bit), open the valve, busy-wait,
close the valve, then log and display the pulse count. -/
def runMessurementFull (seconds : Nat) (s : St) : Option (St × List TEv) :=
  let s0 : St := { s with pulses := 0 }
  let hdr : List TEv :=
    [(s0.now, Ev.reset),
     (s0.now, Ev.display "Running " 0),
     (s0.now, Ev.display (toString seconds ++ " seconds") 1),
     (s0.now, Ev.log ("Measurement starts with " ++ toString seconds ++ "s"))]
  match millis s0 with
  | none => none
  | some (startTime, s1) =>
      let measurementMs := (seconds * 1000) % W32
      let stoptime := (startTime + measurementMs) % W32
      let s2 : St := { s1 with valveLevel := false }
      match waitLoop stoptime 0 s2.pulses s2.clock with
      | none => none
      | some (tE, pE, restE, logs) =>
          let s3 : St :=
            { s2 with pulses := pE, now := tE, clock := restE, valveLevel := true }
          some (s3,
            hdr ++ (startTime, Ev.valveWrite false) :: logs ++
              [(tE, Ev.valveWrite true),
               (tE, Ev.log ("Pulses: " ++ toString pE)),
               (tE, Ev.display "Pulses" 0),
               (tE, Ev.display (toString pE) 1)])

/-- The inter-cycle pause of split mode:

```c
startTime = millis();
unsigned long waitTime = 0;
while (waitTime < 2000) { waitTime = millis() - startTime; }
```

(The `startTime = millis()` read is performed by the caller; this is the
inner loop, which always performs at least one read.) -/
def pauseLoop (startTime : Nat) :
    Nat → List Tick → Option (Nat × Nat × List Tick)
  | _, [] => none
  | pulses, t :: rest =>
      let p1 := pulses + t.edges
      if usub t.time startTime < 2000 then
        pauseLoop startTime p1 rest
      else
        some (t.time, p1, rest)

/-- One iteration of the `for (int i = 0; i < 10; i++)` loop of
`runMessurementSplitted`: read `startTime`, display the 1-based cycle number,
open the valve, busy-wait `seconds`, close the valve, then pause 2000 ms. -/
def cycleOnce (seconds i : Nat) (s : St) : Option (St × List TEv) :=
  match millis s with
  | none => none
  | some (startTime, s1) =>
      let cycle := i + 1
      let hdr : List TEv :=
        [(startTime, Ev.display ("Cycle: " ++ toString cycle) 1),
         (startTime, Ev.valveWrite false)]
      let s2 : St := { s1 with valveLevel := false }
      let stoptime := (startTime + (seconds * 1000) % W32) % W32
      match waitLoop stoptime 0 s2.pulses s2.clock with
      | none => none
      | some (tE, pE, restE, logs) =>
          let s3 : St :=
            { s2 with pulses := pE, now := tE, clock := restE, valveLevel := true }
          match millis s3 with
          | none => none
          | some (pstart, s4) =>
              match pauseLoop pstart s4.pulses s4.clock with
              | none => none
              | some (pend, p2, rest2) =>
                  some ({ s4 with pulses := p2, now := pend, clock := rest2 },
                    hdr ++ logs ++ [(tE, Ev.valveWrite true)])

/-- The cycle loop of `runMessurementSplitted`: run `n` more cycles starting
at loop index `i`. -/
def cyclesRun (seconds : Nat) : Nat → Nat → St → Option (St × List TEv)
  | _, 0, s => some (s, [])
  | i, n + 1, s =>
      match cycleOnce seconds i s with
      | none => none
      | some (s1, tr) =>
          match cyclesRun seconds (i + 1) n s1 with
          | none => none
          | some (s2, tr2) => some (s2, tr ++ tr2)

/-- `runMessurementSplitted(unsigned int seconds)` from `src/main.cpp`:
reset `pulses` once up front, run 10 open/close cycles of `seconds` each with
a 2000 ms pause after every cycle, then log and display the accumulated
count. -/
def runMessurementSplitted (seconds : Nat) (s : St) : Option (St × List TEv) :=
  let s0 : St := { s with pulses := 0 }
  let hdr : List TEv :=
    [(s0.now, Ev.reset),
     (s0.now, Ev.display ("Running " ++ toString seconds ++ " seconds") 0),
     (s0.now, Ev.log ("Splitted measurement starts with 10x " ++ toString seconds ++ "s"))]
  match cyclesRun seconds 0 10 s0 with
  | none => none
  | some (s1, tr) =>
      some (s1,
        hdr ++ tr ++
          [(s1.now, Ev.log ("Pulses: " ++ toString s1.pulses)),
           (s1.now, Ev.display "Pulses" 0),
           (s1.now, Ev.display (toString s1.pulses) 1)])

/-- `setup()` from `src/main.cpp`: serial, display, pin configuration, the
falling-edge interrupt on the flow-meter pin, valve forced HIGH (closed),
and the "Ready" banner. -/
def setup (s : St) : St × List TEv :=
  ({ s with valveLevel := true },
   [(s.now, Ev.serialBegin 9600),
    (s.now, Ev.lcdInit),
    (s.now, Ev.backlight),
    (s.now, Ev.pinMode flowMeterPin PMode.inputPullup),
    (s.now, Ev.pinMode valvePin PMode.output),
    (s.now, Ev.pinMode buttonPin1Second PMode.inputPullup),
    (s.now, Ev.pinMode buttonPin3Second PMode.inputPullup),
    (s.now, Ev.pinMode buttonPin10Second PMode.inputPullup),
    (s.now, Ev.pinMode buttonPin100Second PMode.inputPullup),
    (s.now, Ev.attach flowMeterPin IEdge.falling),
    (s.now, Ev.valveWrite true),
    (s.now, Ev.display "Ready" 0)])

/-- The four button levels sampled by one `loop()` iteration; `true` means
`digitalRead(pin) == LOW`, i.e. the button is pressed. -/
structure Buttons where
  b1 : Bool
  b3 : Bool
  b10 : Bool
  b100 : Bool
  deriving Repr, DecidableEq

/-- One per-button check block of `loop()`:

```c
if (digitalRead(pin) == LOW) {
  if ((millis() - lastDebounceTime) > debounceDelay) {
    Serial.println(label);
    run(...);
  }
  lastDebounceTime = millis();
}
```

The four blocks in the source are this shape with `(pin, label, run)`
instantiated. -/
def buttonCheck (pressed : Bool) (label : String)
    (run : St → Option (St × List TEv)) (s : St) : Option (St × List TEv) :=
  if pressed then
    match millis s with
    | none => none
    | some (t, s1) =>
        if usub t s1.lastDebounceTime > debounceDelay then
          match run s1 with
          | none => none
          | some (s2, tr) =>
              match millis s2 with
              | none => none
              | some (t2, s3) =>
                  some ({ s3 with lastDebounceTime := t2 }, (t, Ev.log label) :: tr)
        else
          match millis s1 with
          | none => none
          | some (t2, s2) =>
              some ({ s2 with lastDebounceTime := t2 }, [])
  else
    some (s, [])

/-- One iteration of `loop()` from `src/main.cpp`: the four button blocks in
source order, with their fixed labels, modes and durations. -/
def loopIter (b : Buttons) (s : St) : Option (St × List TEv) :=
  match buttonCheck b.b1 "Button 1s pressed" (runMessurementSplitted 1) s with
  | none => none
  | some (sA, trA) =>
      match buttonCheck b.b3 "Button 3s pressed" (runMessurementSplitted 3) sA with
      | none => none
      | some (sB, trB) =>
          match buttonCheck b.b10 "Button 10s pressed" (runMessurementFull 10) sB with
          | none => none
          | some (sC, trC) =>
              match buttonCheck b.b100 "Button 100s pressed" (runMessurementFull 100) sC with
              | none => none
              | some (sD, trD) => some (sD, trA ++ trB ++ trC ++ trD)

/-- The number of events in a trace equal to `Ev.log label` (used to count
accepted button presses and progress-log lines). -/
def countLog (label : String) (tr : List TEv) : Nat :=
  (tr.filter fun e => decide (e.2 = Ev.log label)).length

/-- The shape of the event block emitted by the cycle loop of split mode:
for each cycle a 1-based cycle display and valve-open at the cycle's start
reading, the busy-wait's log lines, and the valve-close at the wait's exit
reading.  `pairs` are the (open, close) timestamps, `logss` the per-cycle
wait logs, `i` the 1-based index of the first cycle. -/
def splitBody : List (Nat × Nat) → List (List TEv) → Nat → List TEv
  | (o, c) :: ps, ls :: lss, i =>
      (o, Ev.display ("Cycle: " ++ toString i) 1) :: (o, Ev.valveWrite false) ::
        (ls ++ (c, Ev.valveWrite true) :: splitBody ps lss (i + 1))
  | _, _, _ => []

/-- What `runMessurementFull d` does, per the specification: reset first,
report the start, open the valve at the start reading `o`, emit only
progress-log events while waiting, close at reading `c` with
`c > o + d * 1000` (the hold is at least `d` seconds), and afterwards log and
display the pulse snapshot, which equals the number of sensor edges delivered
during the run; the valve level ends CLOSED (HIGH). -/
def FullWindowSpec (d : Nat) (s s2 : St) (tr : List TEv) : Prop :=
  ∃ (o c pTotal : Nat) (logs : List TEv) (consumed : List Tick),
    tr = [(s.now, Ev.reset),
          (s.now, Ev.display "Running " 0),
          (s.now, Ev.display (toString d ++ " seconds") 1),
          (s.now, Ev.log ("Measurement starts with " ++ toString d ++ "s"))] ++
         (o, Ev.valveWrite false) :: logs ++
         [(c, Ev.valveWrite true),
          (c, Ev.log ("Pulses: " ++ toString pTotal)),
          (c, Ev.display "Pulses" 0),
          (c, Ev.display (toString pTotal) 1)] ∧
    s.now ≤ o ∧
    o + d * 1000 + 1 ≤ c ∧
    (∀ e ∈ logs, ∃ k : Nat, e.2 = Ev.log ("Time: " ++ toString k ++ "s")) ∧
    s.clock = consumed ++ s2.clock ∧
    pTotal = edgeSum consumed ∧
    s2.pulses = pTotal ∧
    s2.valveLevel = true ∧
    s2.now = c

/-- What `runMessurementSplitted d` does, per the specification: one reset at
the very start, then exactly ten cycles (1-based display indices 1..10),
cycle `k` opening at `pairs[k].1` and closing at `pairs[k].2` with
`close > open + d * 1000`, every close separated from the next open by at
least the 2000 ms pause (and followed by at least 2000 ms before the run
ends, so the pause also happens after the tenth cycle), and the final
reported total equal to the number of sensor edges delivered across the
whole span (waits and pauses alike). -/
def SplitWindowSpec (d : Nat) (s s2 : St) (tr : List TEv) : Prop :=
  ∃ (pairs : List (Nat × Nat)) (logss : List (List TEv)) (consumed : List Tick),
    tr = [(s.now, Ev.reset),
          (s.now, Ev.display ("Running " ++ toString d ++ " seconds") 0),
          (s.now, Ev.log ("Splitted measurement starts with 10x " ++ toString d ++ "s"))] ++
         splitBody pairs logss 1 ++
         [(s2.now, Ev.log ("Pulses: " ++ toString s2.pulses)),
          (s2.now, Ev.display "Pulses" 0),
          (s2.now, Ev.display (toString s2.pulses) 1)] ∧
    pairs.length = 10 ∧
    logss.length = 10 ∧
    (∀ pr ∈ pairs, s.now ≤ pr.1 ∧ pr.1 + d * 1000 + 1 ≤ pr.2 ∧ pr.2 + 2000 ≤ s2.now) ∧
    List.Chain' (fun x y => x.2 + 2000 ≤ y.1) pairs ∧
    (∀ ls ∈ logss, ∀ e ∈ ls, ∃ k : Nat, e.2 = Ev.log ("Time: " ++ toString k ++ "s")) ∧
    s.clock = consumed ++ s2.clock ∧
    s2.pulses = edgeSum consumed ∧
    s2.valveLevel = true

/-- The trace a single button block of `loop()` can emit: nothing (button not
pressed, or press rejected by the debounce gate), or the press log followed
by the trace of that button's fixed measurement routine. -/
def BlockShape (label : String) (run : St → Option (St × List TEv))
    (trB : List TEv) : Prop :=
  trB = [] ∨
    ∃ (tm : Nat) (s0 sR : St) (trR : List TEv),
      run s0 = some (sR, trR) ∧ trB = (tm, Ev.log label) :: trR

/-- Only the 1-second button pressed. -/
def onlyB1 : Buttons := ⟨true, false, false, false⟩

/-- Only the 10-second button pressed. -/
def onlyB10 : Buttons := ⟨false, false, true, false⟩

/-- No button pressed. -/
def noButtons : Buttons := ⟨false, false, false, false⟩

/-- A run returning the state unchanged with no events (used to exercise
`buttonCheck` on its own). -/
def idRun : St → Option (St × List TEv) := fun st => some (st, [])

/-- Concrete state for the full-window witness: pulses left over from an
earlier run, valve closed, clock giving a start reading of 5 and a single
wait reading of 2000 (past `stoptime = 1005`) carrying 3 sensor edges. -/
def exFullSt : St := ⟨7, true, 0, 0, [⟨5, 0⟩, ⟨2000, 3⟩]⟩

/-- Clock schedule for the split-window witness (`d = 1`): each cycle `k`
takes a start reading, one wait reading past its stop time, a pause start
reading, and a pause reading 2003 ms later; 40 edges arrive in total. -/
def exSplitClock : List Tick :=
  [⟨5, 1⟩,
   ⟨1006, 2⟩,
   ⟨1007, 0⟩,
   ⟨3010, 1⟩,
   ⟨4005, 1⟩,
   ⟨5006, 2⟩,
   ⟨5007, 0⟩,
   ⟨7010, 1⟩,
   ⟨8005, 1⟩,
   ⟨9006, 2⟩,
   ⟨9007, 0⟩,
   ⟨11010, 1⟩,
   ⟨12005, 1⟩,
   ⟨13006, 2⟩,
   ⟨13007, 0⟩,
   ⟨15010, 1⟩,
   ⟨16005, 1⟩,
   ⟨17006, 2⟩,
   ⟨17007, 0⟩,
   ⟨19010, 1⟩,
   ⟨20005, 1⟩,
   ⟨21006, 2⟩,
   ⟨21007, 0⟩,
   ⟨23010, 1⟩,
   ⟨24005, 1⟩,
   ⟨25006, 2⟩,
   ⟨25007, 0⟩,
   ⟨27010, 1⟩,
   ⟨28005, 1⟩,
   ⟨29006, 2⟩,
   ⟨29007, 0⟩,
   ⟨31010, 1⟩,
   ⟨32005, 1⟩,
   ⟨33006, 2⟩,
   ⟨33007, 0⟩,
   ⟨35010, 1⟩,
   ⟨36005, 1⟩,
   ⟨37006, 2⟩,
   ⟨37007, 0⟩,
   ⟨39010, 1⟩]

/-- Concrete state for the split-window witness. -/
def exSplitSt : St := ⟨3, true, 0, 0, exSplitClock⟩

/-- Debounce counterexample state: boot values (`lastDebounceTime = 0`),
presses of the 1-second button sampled at 100 and 400 ms. -/
def c3St : St := ⟨0, true, 0, 0, [⟨100, 0⟩, ⟨150, 0⟩, ⟨400, 0⟩, ⟨450, 0⟩]⟩

/-- The state after the first (rejected) press of the 1-second button in
`c3St`: the shared debounce clock was refreshed to 150 anyway. -/
def c3Mid : St := ⟨0, true, 150, 150, [⟨400, 0⟩, ⟨450, 0⟩]⟩

/-- Same-button gap demo: the 10-second button is sampled pressed at
readings 100 (rejected, clock refreshed at 150) and 700 — more than 500 ms
apart, yet only the second press is accepted. -/
def cGapSt : St :=
  ⟨0, true, 0, 0, [⟨100, 0⟩, ⟨150, 0⟩, ⟨700, 0⟩, ⟨800, 0⟩, ⟨10801, 0⟩, ⟨10802, 0⟩]⟩

/-- The state after the first (rejected) press of `cGapSt`. -/
def cGapMid : St := ⟨0, true, 150, 150, [⟨700, 0⟩, ⟨800, 0⟩, ⟨10801, 0⟩, ⟨10802, 0⟩]⟩

/-- Starvation demo, scenario A: the 1-second and 10-second buttons both
pressed; the 1-second press is sampled at 300 (rejected), the 10-second
press at 700. -/
def c4StA : St := ⟨0, true, 0, 0, [⟨300, 0⟩, ⟨350, 0⟩, ⟨700, 0⟩, ⟨750, 0⟩]⟩

/-- Starvation demo, scenario B: only the 10-second button pressed, sampled
at the same 700 ms instant as in scenario A. -/
def c4StB : St := ⟨0, true, 0, 0, [⟨700, 0⟩, ⟨710, 0⟩, ⟨10711, 0⟩, ⟨10712, 0⟩]⟩

/-- `buttonCheck` witness state: an accepted press at 600 ms, debounce
refresh reading at 601 ms. -/
def c4StW : St := ⟨0, true, 0, 0, [⟨600, 0⟩, ⟨601, 0⟩]⟩

/-- Progress-log demo: `runMessurementFull 2` starting at `millis() = 0`
(so `stoptime = 2000`), with wait readings 100, 150, 160, 200, 250, 260
(second 0), 1100, 1150 (second 1) and 2500 (exit). -/
def c6St : St :=
  ⟨0, true, 0, 0,
   [⟨0, 0⟩, ⟨100, 0⟩, ⟨150, 0⟩, ⟨160, 0⟩, ⟨200, 0⟩, ⟨250, 0⟩, ⟨260, 0⟩,
    ⟨1100, 0⟩, ⟨1150, 0⟩, ⟨2500, 0⟩]⟩

/-- Zero-duration witness state: start reading 5 (2 edges), next reading 6
(1 edge). -/
def c7St : St := ⟨0, true, 0, 0, [⟨5, 2⟩, ⟨6, 1⟩]⟩

/-- Overflow demo: `runMessurementFull 10` started with
`millis() = 2^32 - 1`, so `stoptime = (2^32 - 1 + 10000) % 2^32 = 9999`
wraps below the start time and the first wait reading already exits. -/
def c10St : St := ⟨0, true, 0, 0, [⟨4294967295, 0⟩, ⟨4294967295, 0⟩]⟩

/-- The trace `runMessurementFull 2 c6St` produces: the progress line
"Time: 0s" is printed twice inside second 0 (readings 160 and 260) and no
line at all is printed when the elapsed second advances to 1. -/
def c6Tr : List TEv :=
  [(0, Ev.reset),
   (0, Ev.display "Running " 0),
   (0, Ev.display "2 seconds" 1),
   (0, Ev.log "Measurement starts with 2s"),
   (0, Ev.valveWrite false),
   (160, Ev.log "Time: 0s"),
   (260, Ev.log "Time: 0s"),
   (2500, Ev.valveWrite true),
   (2500, Ev.log "Pulses: 0"),
   (2500, Ev.display "Pulses" 0),
   (2500, Ev.display "0" 1)]

/-- The trace `runMessurementFull 10 c10St` produces: the valve opens and
closes at the same `millis()` reading because the wrapped stop time lies
below the start time. -/
def c10Tr : List TEv :=
  [(0, Ev.reset),
   (0, Ev.display "Running " 0),
   (0, Ev.display "10 seconds" 1),
   (0, Ev.log "Measurement starts with 10s"),
   (4294967295, Ev.valveWrite false),
   (4294967295, Ev.valveWrite true),
   (4294967295, Ev.log "Pulses: 0"),
   (4294967295, Ev.display "Pulses" 0),
   (4294967295, Ev.display "0" 1)]

end Flowmeter

namespace Flowmeter

/-! ## Basic lemmas -/

theorem usub_eq_sub {a b : Nat} (hba : b ≤ a) (ha : a < W32) :
    usub a b = a - b := by
  have hb : b < W32 := lt_of_le_of_lt hba ha
  unfold usub
  rw [Nat.mod_eq_of_lt ha, Nat.mod_eq_of_lt hb]
  have hw : a + (W32 - b) = W32 + (a - b) := by omega
  rw [hw, Nat.add_mod_left, Nat.mod_eq_of_lt (by omega)]

theorem monoClock_cons {n : Nat} {t : Tick} {ts : List Tick} :
    monoClock n (t :: ts) = true ↔
      n ≤ t.time ∧ t.time < W32 ∧ monoClock t.time ts = true := by
  simp [monoClock, and_assoc]

theorem edgeSum_nil : edgeSum [] = 0 := rfl

theorem edgeSum_cons (t : Tick) (l : List Tick) :
    edgeSum (t :: l) = t.edges + edgeSum l := by
  simp [edgeSum]

theorem edgeSum_append (a b : List Tick) :
    edgeSum (a ++ b) = edgeSum a + edgeSum b := by
  simp [edgeSum]

theorem timeBounded_cons {d : Nat} {t : Tick} {ts : List Tick} :
    timeBounded d (t :: ts) = true ↔
      t.time + d * 1000 < W32 ∧ timeBounded d ts = true := by
  simp [timeBounded]

theorem timeBounded_suffix {d : Nat} {a b : List Tick}
    (h : timeBounded d (a ++ b) = true) : timeBounded d b = true := by
  simp only [timeBounded, List.all_append, Bool.and_eq_true] at h
  exact h.2

theorem countLog_nil (label : String) : countLog label [] = 0 := rfl

theorem countLog_append (label : String) (a b : List TEv) :
    countLog label (a ++ b) = countLog label a + countLog label b := by
  simp [countLog]

end Flowmeter

namespace Flowmeter

/-! ## Loop and routine characterisation lemmas -/

theorem waitLoop_spec (stop : Nat) :
    ∀ (L : Nat) (clock : List Tick), clock.length ≤ L →
    ∀ (pm p n tE pE : Nat) (restE : List Tick) (logs : List TEv),
      monoClock n clock = true →
      waitLoop stop pm p clock = some (tE, pE, restE, logs) →
      stop < tE ∧ n ≤ tE ∧ tE < W32 ∧ monoClock tE restE = true ∧
        (∃ consumed, clock = consumed ++ restE ∧ pE = p + edgeSum consumed) ∧
        ∀ e ∈ logs, ∃ k : Nat, e.2 = Ev.log ("Time: " ++ toString k ++ "s") := by
  intro L
  induction L with
  | zero =>
      intro clock hL pm p n tE pE restE logs hm heq
      rcases clock with _ | ⟨t, rest⟩
      · simp [waitLoop] at heq
      · simp at hL
  | succ L ih =>
      intro clock hL pm p n tE pE restE logs hm heq
      rcases clock with _ | ⟨t, rest⟩
      · simp [waitLoop] at heq
      · rw [waitLoop.eq_def] at heq
        dsimp only at heq
        rw [monoClock_cons] at hm
        obtain ⟨hnt, htW, hm1⟩ := hm
        by_cases hts : t.time ≤ stop
        · rw [if_pos hts] at heq
          rcases rest with _ | ⟨t2, rest2⟩
          · simp at heq
          · dsimp only at heq
            rw [monoClock_cons] at hm1
            obtain ⟨ht12, ht2W, hm2⟩ := hm1
            by_cases hpm : t2.time / 1000 = pm
            · rw [if_pos hpm] at heq
              rcases rest2 with _ | ⟨t3, rest3⟩
              · simp at heq
              · dsimp only at heq
                rw [monoClock_cons] at hm2
                obtain ⟨ht23, ht3W, hm3⟩ := hm2
                rcases hrec : waitLoop stop (t3.time / 1000)
                    (p + t.edges + t2.edges + t3.edges) rest3 with _ | ⟨tE0, pE0, restE0, logs0⟩
                · rw [hrec] at heq; simp at heq
                · rw [hrec] at heq
                  dsimp only at heq
                  simp only [Option.some.injEq, Prod.mk.injEq] at heq
                  obtain ⟨h1, h2, h3, h4⟩ := heq
                  subst h1; subst h2; subst h3; subst h4
                  have hlen : rest3.length ≤ L := by
                    simp at hL; omega
                  obtain ⟨hstop, hle, hW, hmono, ⟨consumed0, hsplit, hpE⟩, hlogs⟩ :=
                    ih rest3 hlen _ _ t3.time _ _ _ _ hm3 hrec
                  refine ⟨hstop, by omega, hW, hmono,
                    ⟨t :: t2 :: t3 :: consumed0, by simp [hsplit], ?_⟩, ?_⟩
                  · simp [edgeSum_cons, hpE]; omega
                  · intro e he
                    rcases List.mem_cons.mp he with he | he
                    · exact ⟨t3.time / 1000, by simp [he]⟩
                    · exact hlogs e he
            · rw [if_neg hpm] at heq
              have hlen : rest2.length ≤ L := by
                simp at hL; omega
              obtain ⟨hstop, hle, hW, hmono, ⟨consumed0, hsplit, hpE⟩, hlogs⟩ :=
                ih rest2 hlen _ _ t2.time _ _ _ _ hm2 heq
              refine ⟨hstop, by omega, hW, hmono,
                ⟨t :: t2 :: consumed0, by simp [hsplit], ?_⟩, hlogs⟩
              simp [edgeSum_cons, hpE]; omega
        · rw [if_neg hts] at heq
          simp only [Option.some.injEq, Prod.mk.injEq] at heq
          obtain ⟨h1, h2, h3, h4⟩ := heq
          subst h1; subst h2; subst h3; subst h4
          exact ⟨by omega, hnt, htW, hm1,
            ⟨[t], rfl, by simp [edgeSum_cons, edgeSum_nil]⟩, by simp⟩

theorem pauseLoop_spec (start : Nat) :
    ∀ (clock : List Tick) (p n tE pE : Nat) (restE : List Tick),
      monoClock n clock = true → start ≤ n → start < W32 →
      pauseLoop start p clock = some (tE, pE, restE) →
      start + 2000 ≤ tE ∧ n ≤ tE ∧ tE < W32 ∧ monoClock tE restE = true ∧
        ∃ consumed, clock = consumed ++ restE ∧ pE = p + edgeSum consumed := by
  intro clock
  induction clock with
  | nil =>
      intro p n tE pE restE hm hsn hsW heq
      simp [pauseLoop] at heq
  | cons t ts ih =>
      intro p n tE pE restE hm hsn hsW heq
      rw [pauseLoop.eq_def] at heq
      dsimp only at heq
      rw [monoClock_cons] at hm
      obtain ⟨hnt, htW, hmts⟩ := hm
      have hst : start ≤ t.time := le_trans hsn hnt
      by_cases hlt : usub t.time start < 2000
      · rw [if_pos hlt] at heq
        obtain ⟨h1, h2, h3, h4, consumed0, hsplit, hpE⟩ :=
          ih _ t.time _ _ _ hmts hst hsW heq
        refine ⟨h1, by omega, h3, h4, ⟨t :: consumed0, by simp [hsplit], ?_⟩⟩
        simp [edgeSum_cons, hpE]; omega
      · rw [if_neg hlt] at heq
        simp only [Option.some.injEq, Prod.mk.injEq] at heq
        obtain ⟨h1, h2, h3⟩ := heq
        subst h1; subst h2; subst h3
        rw [usub_eq_sub hst htW] at hlt
        exact ⟨by omega, hnt, htW, hmts,
          ⟨[t], rfl, by simp [edgeSum_cons, edgeSum_nil]⟩⟩

theorem waitLoop_run {stop : Nat} {clock : List Tick} {pm p n tE pE : Nat}
    {restE : List Tick} {logs : List TEv}
    (hm : monoClock n clock = true)
    (heq : waitLoop stop pm p clock = some (tE, pE, restE, logs)) :
    stop < tE ∧ n ≤ tE ∧ tE < W32 ∧ monoClock tE restE = true ∧
      (∃ consumed, clock = consumed ++ restE ∧ pE = p + edgeSum consumed) ∧
      ∀ e ∈ logs, ∃ k : Nat, e.2 = Ev.log ("Time: " ++ toString k ++ "s") :=
  waitLoop_spec stop clock.length clock le_rfl pm p n tE pE restE logs hm heq

theorem cycleOnce_spec (seconds i : Nat) (s s1 : St) (tr : List TEv)
    (hm : monoClock s.now s.clock = true)
    (heq : cycleOnce seconds i s = some (s1, tr)) :
    ∃ (o c : Nat) (logs : List TEv) (consumed : List Tick),
      tr = (o, Ev.display ("Cycle: " ++ toString (i + 1)) 1) ::
           (o, Ev.valveWrite false) :: (logs ++ [(c, Ev.valveWrite true)]) ∧
      s.now ≤ o ∧ o ≤ c ∧ c + 2000 ≤ s1.now ∧ s1.now < W32 ∧
      monoClock s1.now s1.clock = true ∧
      s.clock = consumed ++ s1.clock ∧
      s1.pulses = s.pulses + edgeSum consumed ∧
      s1.valveLevel = true ∧
      s1.lastDebounceTime = s.lastDebounceTime ∧
      (∀ e ∈ logs, ∃ k : Nat, e.2 = Ev.log ("Time: " ++ toString k ++ "s")) ∧
      (timeBounded seconds s.clock = true →
        o + seconds * 1000 + 1 ≤ c ∧ timeBounded seconds s1.clock = true) := by
  unfold cycleOnce at heq
  rcases hc : s.clock with _ | ⟨t0, rest0⟩
  · rw [millis, hc] at heq
    simp at heq
  · rw [millis, hc] at heq
    dsimp only at heq
    rw [hc, monoClock_cons] at hm
    obtain ⟨hn0, h0W, hm0⟩ := hm
    rcases hw : waitLoop ((t0.time + seconds * 1000 % W32) % W32) 0
        (s.pulses + t0.edges) rest0 with _ | ⟨tE, pE, restE, logs⟩
    · rw [hw] at heq; simp at heq
    · rw [hw] at heq
      dsimp only at heq
      obtain ⟨hstop, h0E, hEW, hmE, ⟨consumedW, hsplitW, hpEW⟩, hlogs⟩ :=
        waitLoop_run hm0 hw
      rcases hrE : restE with _ | ⟨pt, rest1⟩
      · rw [hrE, millis] at heq
        simp at heq
      · rw [hrE, millis] at heq
        dsimp only at heq
        rw [hrE, monoClock_cons] at hmE
        obtain ⟨hEp, hpW, hmp⟩ := hmE
        rcases hp : pauseLoop pt.time (pE + pt.edges) rest1 with _ | ⟨pend, p2, rest2⟩
        · rw [hp] at heq; simp at heq
        · rw [hp] at heq
          dsimp only at heq
          simp only [Option.some.injEq, Prod.mk.injEq] at heq
          obtain ⟨hs1, htr⟩ := heq
          subst hs1; subst htr
          obtain ⟨hp1, hp2, hp3, hp4, consumedP, hsplitP, hpP⟩ :=
            pauseLoop_spec pt.time rest1 _ pt.time _ _ _ hmp le_rfl hpW hp
          refine ⟨t0.time, tE, logs, t0 :: (consumedW ++ pt :: consumedP),
            by simp, hn0, by omega, by dsimp only; omega, by dsimp only; exact hp3,
            by dsimp only; exact hp4, ?_, ?_, rfl, rfl, hlogs, ?_⟩
          · rw [hsplitW, hrE, hsplitP]; dsimp only; simp
          · dsimp only; rw [hpP, hpEW]; simp [edgeSum_cons, edgeSum_append]; omega
          · intro htb
            rw [timeBounded_cons] at htb
            obtain ⟨htb0, htbrest⟩ := htb
            have hmA : seconds * 1000 % W32 = seconds * 1000 := Nat.mod_eq_of_lt (by omega)
            have hmB : (t0.time + seconds * 1000 % W32) % W32 = t0.time + seconds * 1000 := by
              rw [hmA, Nat.mod_eq_of_lt htb0]
            rw [hmB] at hstop
            refine ⟨by omega, ?_⟩
            dsimp only
            have h1 : timeBounded seconds restE = true :=
              timeBounded_suffix (hsplitW ▸ htbrest)
            rw [hrE, timeBounded_cons, hsplitP] at h1
            exact timeBounded_suffix h1.2

theorem cyclesRun_spec (seconds : Nat) :
    ∀ (n i : Nat) (s s2 : St) (tr : List TEv),
      monoClock s.now s.clock = true →
      cyclesRun seconds i n s = some (s2, tr) →
      ∃ (pairs : List (Nat × Nat)) (logss : List (List TEv)) (consumed : List Tick),
        tr = splitBody pairs logss (i + 1) ∧
        pairs.length = n ∧ logss.length = n ∧
        s.clock = consumed ++ s2.clock ∧
        s2.pulses = s.pulses + edgeSum consumed ∧
        (∀ pr ∈ pairs, s.now ≤ pr.1 ∧ pr.1 ≤ pr.2 ∧ pr.2 + 2000 ≤ s2.now) ∧
        List.Chain' (fun x y => x.2 + 2000 ≤ y.1) pairs ∧
        (∀ ls ∈ logss, ∀ e ∈ ls, ∃ k : Nat, e.2 = Ev.log ("Time: " ++ toString k ++ "s")) ∧
        s2.lastDebounceTime = s.lastDebounceTime ∧
        s.now + n * 2000 ≤ s2.now ∧
        monoClock s2.now s2.clock = true ∧
        (n = 0 → s2 = s ∧ tr = []) ∧
        (0 < n → s2.valveLevel = true ∧ s2.now < W32) ∧
        (timeBounded seconds s.clock = true →
          (∀ pr ∈ pairs, pr.1 + seconds * 1000 + 1 ≤ pr.2) ∧
          timeBounded seconds s2.clock = true) := by
  intro n
  induction n with
  | zero =>
      intro i s s2 tr hm heq
      simp only [cyclesRun, Option.some.injEq, Prod.mk.injEq] at heq
      obtain ⟨h1, h2⟩ := heq
      subst h1; subst h2
      refine ⟨[], [], [], rfl, rfl, rfl, rfl, by simp [edgeSum_nil], by simp, by simp,
        by simp, rfl, by omega, hm, fun _ => ⟨rfl, rfl⟩, by omega, fun htb => ⟨by simp, htb⟩⟩
  | succ n ih =>
      intro i s s2 tr hm heq
      simp only [cyclesRun] at heq
      rcases hco : cycleOnce seconds i s with _ | ⟨s1, tr1⟩
      · rw [hco] at heq; simp at heq
      · rw [hco] at heq
        dsimp only at heq
        rcases hcr : cyclesRun seconds (i + 1) n s1 with _ | ⟨s2x, tr2⟩
        · rw [hcr] at heq; simp at heq
        · rw [hcr] at heq
          dsimp only at heq
          simp only [Option.some.injEq, Prod.mk.injEq] at heq
          obtain ⟨h1, h2⟩ := heq
          subst h1; subst h2
          obtain ⟨o, c, logs, consumedA, htr1, hno, hoc, hcn, hnW, hm1, hsplitA, hpA,
            hvalve1, hdb1, hlogsA, hcond1⟩ := cycleOnce_spec seconds i s s1 tr1 hm hco
          obtain ⟨pairs1, logss1, consumedB, htr2, hlen1, hlen2, hsplitB, hpB, hprs, hchain,
            hlogsB, hdb2, hnow2, hm2, hzero, hpos, hcond2⟩ := ih (i + 1) s1 s2x tr2 hm1 hcr
          refine ⟨(o, c) :: pairs1, logs :: logss1, consumedA ++ consumedB, ?_, by simp [hlen1],
            by simp [hlen2], ?_, ?_, ?_, ?_, ?_, by omega, by omega, hm2, by omega, ?_, ?_⟩
          · rw [htr1, htr2, splitBody]
            simp
          · rw [hsplitA, hsplitB]; simp
          · rw [hpB, hpA, edgeSum_append]; omega
          · intro pr hpr
            rcases List.mem_cons.mp hpr with hpr | hpr
            · subst hpr
              exact ⟨hno, hoc, by omega⟩
            · obtain ⟨ha, hb, hcc⟩ := hprs pr hpr
              exact ⟨by omega, hb, hcc⟩
          · rw [List.chain'_cons']
            refine ⟨?_, hchain⟩
            intro y hy
            have hmem : y ∈ pairs1 := List.mem_of_mem_head? hy
            have := (hprs y hmem).1
            omega
          · intro ls hls e he
            rcases List.mem_cons.mp hls with hls | hls
            · subst hls; exact hlogsA e he
            · exact hlogsB ls hls e he
          · intro hn
            rcases Nat.eq_zero_or_pos n with hn0 | hn0
            · subst hn0
              obtain ⟨hs2, _⟩ := hzero rfl
              subst hs2
              exact ⟨hvalve1, hnW⟩
            · exact hpos hn0
          · intro htb
            obtain ⟨htimeA, htb1⟩ := hcond1 htb
            obtain ⟨htimeB, htb2⟩ := hcond2 htb1
            refine ⟨?_, htb2⟩
            intro pr hpr
            rcases List.mem_cons.mp hpr with hpr | hpr
            · subst hpr; exact htimeA
            · exact htimeB pr hpr

theorem split_duration (seconds : Nat) (s s2 : St) (tr : List TEv)
    (hm : monoClock s.now s.clock = true)
    (heq : runMessurementSplitted seconds s = some (s2, tr)) :
    s.now + 20000 ≤ s2.now ∧ monoClock s2.now s2.clock = true := by
  simp only [runMessurementSplitted] at heq
  rcases hcy : cyclesRun seconds 0 10 { s with pulses := 0 } with _ | ⟨s1, trC⟩
  · rw [hcy] at heq; simp at heq
  · rw [hcy] at heq
    dsimp only at heq
    simp only [Option.some.injEq, Prod.mk.injEq] at heq
    obtain ⟨h1, h2⟩ := heq
    subst h1
    obtain ⟨pairs, logss, consumed, htr, hlen1, hlen2, hclk, hpul, hprs, hchain,
      hlogss, hdb, hnow, hmono, hzero, hpos, hcond⟩ :=
      cyclesRun_spec seconds 10 0 { s with pulses := 0 } s1 trC (by dsimp only; exact hm) hcy
    refine ⟨?_, hmono⟩
    dsimp only at hnow
    omega

theorem buttonCheck_refresh (label : String) (run : St → Option (St × List TEv))
    (s s2 : St) (tr : List TEv)
    (heq : buttonCheck true label run s = some (s2, tr)) :
    s2.lastDebounceTime = s2.now := by
  simp only [buttonCheck, if_true, millis] at heq
  rcases hc : s.clock with _ | ⟨t, rest⟩
  · rw [hc] at heq; simp at heq
  · rw [hc] at heq
    dsimp only at heq
    by_cases hacc : usub t.time s.lastDebounceTime > debounceDelay
    · rw [if_pos hacc] at heq
      rcases hrun : run { s with pulses := s.pulses + t.edges, now := t.time, clock := rest }
          with _ | ⟨sR, trR⟩
      · rw [hrun] at heq; simp at heq
      · rw [hrun] at heq
        dsimp only at heq
        rcases hcR : sR.clock with _ | ⟨tb, restb⟩
        · rw [hcR] at heq; simp at heq
        · rw [hcR] at heq
          dsimp only at heq
          simp only [Option.some.injEq, Prod.mk.injEq] at heq
          obtain ⟨h1, h2⟩ := heq
          subst h1; rfl
    · rw [if_neg hacc] at heq
      rcases hc2 : rest with _ | ⟨tb, restb⟩
      · rw [hc2] at heq; simp at heq
      · rw [hc2] at heq
        dsimp only at heq
        simp only [Option.some.injEq, Prod.mk.injEq] at heq
        obtain ⟨h1, h2⟩ := heq
        subst h1; rfl

theorem buttonCheck_blockShape (pressed : Bool) (label : String)
    (run : St → Option (St × List TEv)) (s s2 : St) (trB : List TEv)
    (heq : buttonCheck pressed label run s = some (s2, trB)) :
    BlockShape label run trB := by
  cases pressed
  · simp only [buttonCheck] at heq
    simp only [Bool.false_eq_true, if_false, Option.some.injEq, Prod.mk.injEq] at heq
    exact Or.inl heq.2.symm
  · simp only [buttonCheck, if_true, millis] at heq
    rcases hc : s.clock with _ | ⟨t, rest⟩
    · rw [hc] at heq; simp at heq
    · rw [hc] at heq
      dsimp only at heq
      by_cases hacc : usub t.time s.lastDebounceTime > debounceDelay
      · rw [if_pos hacc] at heq
        rcases hrun : run { s with pulses := s.pulses + t.edges, now := t.time, clock := rest }
            with _ | ⟨sR, trR⟩
        · rw [hrun] at heq; simp at heq
        · rw [hrun] at heq
          dsimp only at heq
          rcases hcR : sR.clock with _ | ⟨tb, restb⟩
          · rw [hcR] at heq; simp at heq
          · rw [hcR] at heq
            dsimp only at heq
            simp only [Option.some.injEq, Prod.mk.injEq] at heq
            obtain ⟨h1, h2⟩ := heq
            exact Or.inr ⟨t.time, _, sR, trR, hrun, h2.symm⟩
      · rw [if_neg hacc] at heq
        rcases hc2 : rest with _ | ⟨tb, restb⟩
        · rw [hc2] at heq; simp at heq
        · rw [hc2] at heq
          dsimp only at heq
          simp only [Option.some.injEq, Prod.mk.injEq] at heq
          exact Or.inl heq.2.symm

theorem loopIter_onlyB1_eq (s s1 : St) (tr : List TEv) :
    loopIter onlyB1 s = some (s1, tr) ↔
      buttonCheck true "Button 1s pressed" (runMessurementSplitted 1) s = some (s1, tr) := by
  simp only [loopIter, onlyB1]
  rcases h : buttonCheck true "Button 1s pressed" (runMessurementSplitted 1) s with _ | ⟨sA, trA⟩
  · simp
  · simp [buttonCheck]

theorem buttonCheck_accept_iff (label : String) (run : St → Option (St × List TEv))
    (s : St) (t : Tick) (rest : List Tick) (s2 : St) (tr : List TEv)
    (hc : s.clock = t :: rest)
    (heq : buttonCheck true label run s = some (s2, tr)) :
    ((t.time, Ev.log label) ∈ tr ↔ debounceDelay < usub t.time s.lastDebounceTime) := by
  simp only [buttonCheck, if_true, millis] at heq
  rw [hc] at heq
  dsimp only at heq
  by_cases hacc : usub t.time s.lastDebounceTime > debounceDelay
  · rw [if_pos hacc] at heq
    rcases hrun : run { s with pulses := s.pulses + t.edges, now := t.time, clock := rest }
        with _ | ⟨sR, trR⟩
    · rw [hrun] at heq; simp at heq
    · rw [hrun] at heq
      dsimp only at heq
      rcases hcR : sR.clock with _ | ⟨tb, restb⟩
      · rw [hcR] at heq; simp at heq
      · rw [hcR] at heq
        dsimp only at heq
        simp only [Option.some.injEq, Prod.mk.injEq] at heq
        obtain ⟨h1, h2⟩ := heq
        subst h2
        simp only [List.mem_cons, true_or, true_iff]
        exact hacc
  · rw [if_neg hacc] at heq
    rcases hc2 : rest with _ | ⟨tb, restb⟩
    · rw [hc2] at heq; simp at heq
    · rw [hc2] at heq
      dsimp only at heq
      simp only [Option.some.injEq, Prod.mk.injEq] at heq
      obtain ⟨h1, h2⟩ := heq
      subst h2
      simp only [List.not_mem_nil, false_iff]
      exact hacc

theorem two_press_at_most_one (s s1 s2 : St) (tr1 tr2 : List TEv) (t1 t2 : Tick)
    (hm : monoClock s.now s.clock = true)
    (hh1 : s.clock.head? = some t1)
    (h1 : loopIter onlyB1 s = some (s1, tr1))
    (hh2 : s1.clock.head? = some t2)
    (h2 : loopIter onlyB1 s1 = some (s2, tr2))
    (gap : t2.time < t1.time + 500) :
    countLog "Button 1s pressed" (tr1 ++ tr2) ≤ 1 := by
  rw [loopIter_onlyB1_eq] at h1 h2
  rcases hc : s.clock with _ | ⟨t1x, rest⟩
  · rw [hc] at hh1; simp at hh1
  · rw [hc] at hh1
    simp only [List.head?_cons, Option.some.injEq] at hh1
    subst hh1
    rw [hc, monoClock_cons] at hm
    obtain ⟨hn1, h1W, hm1⟩ := hm
    simp only [buttonCheck, if_true, millis] at h1
    rw [hc] at h1
    dsimp only at h1
    by_cases hacc : usub t1x.time s.lastDebounceTime > debounceDelay
    · rw [if_pos hacc] at h1
      rcases hrun : runMessurementSplitted 1
          { s with pulses := s.pulses + t1x.edges, now := t1x.time, clock := rest }
          with _ | ⟨sR, trR⟩
      · rw [hrun] at h1; simp at h1
      · rw [hrun] at h1
        dsimp only at h1
        rcases hcR : sR.clock with _ | ⟨tb, restb⟩
        · rw [hcR] at h1; simp at h1
        · rw [hcR] at h1
          dsimp only at h1
          simp only [Option.some.injEq, Prod.mk.injEq] at h1
          obtain ⟨hs1, htr1⟩ := h1
          obtain ⟨hdur, hmR⟩ := split_duration 1 _ sR trR (by dsimp only; exact hm1) hrun
          dsimp only at hdur
          rw [hcR, monoClock_cons] at hmR
          obtain ⟨hRb, hbW, hmb⟩ := hmR
          subst hs1
          dsimp only at hh2
          rcases hrb : restb with _ | ⟨t2x, rest3⟩
          · rw [hrb] at hh2; simp at hh2
          · rw [hrb] at hh2
            simp only [List.head?_cons, Option.some.injEq] at hh2
            subst hh2
            rw [hrb, monoClock_cons] at hmb
            exact absurd gap (by omega)
    · rw [if_neg hacc] at h1
      rcases hc2 : rest with _ | ⟨tb, restb⟩
      · rw [hc2] at h1; simp at h1
      · rw [hc2] at h1
        dsimp only at h1
        simp only [Option.some.injEq, Prod.mk.injEq] at h1
        obtain ⟨hs1, htr1⟩ := h1
        subst hs1
        rw [hc2, monoClock_cons] at hm1
        obtain ⟨h1b, hbW, hmb⟩ := hm1
        dsimp only at hh2 h2
        rcases hrb : restb with _ | ⟨t2x, rest3⟩
        · rw [hrb] at hh2; simp at hh2
        · rw [hrb] at hh2
          simp only [List.head?_cons, Option.some.injEq] at hh2
          subst hh2
          rw [hrb, monoClock_cons] at hmb
          obtain ⟨hb2, h2W, hm3⟩ := hmb
          simp only [buttonCheck, if_true, millis] at h2
          rw [hrb] at h2
          dsimp only at h2
          have hrej : ¬ (usub t2x.time tb.time > debounceDelay) := by
            rw [usub_eq_sub hb2 h2W]
            simp only [debounceDelay]
            omega
          rw [if_neg hrej] at h2
          rcases hr3 : rest3 with _ | ⟨tc, rest4⟩
          · rw [hr3] at h2; simp at h2
          · rw [hr3] at h2
            dsimp only at h2
            simp only [Option.some.injEq, Prod.mk.injEq] at h2
            obtain ⟨hs2, htr2⟩ := h2
            rw [← htr1, ← htr2]
            simp [countLog]

end Flowmeter

namespace Flowmeter

/-! ## The claims -/

/-- C1: for every duration `d > 0`, with the valve CLOSED on entry, a
monotone 32-bit clock and no `stoptime` overflow, the full-window routine
first resets the pulse count (the `Ev.reset` heading the trace), opens the
valve at the start reading `o` and holds it open at least `d` seconds
(the close reading `c` satisfies `c ≥ o + d * 1000 + 1`), emits only
progress-log events while waiting, closes the valve, and only then logs and
displays the pulse-count snapshot, which equals the number of sensor edges
delivered during the run; the valve ends CLOSED, and the result is
independent of the incoming pulse count, so two sequential invocations each
start from a counter reset to 0 with no leakage between runs. -/
theorem full_window_correct (d : Nat) (s s2 : St) (tr : List TEv)
    (hd : 0 < d)
    (hv : s.valveLevel = true)
    (hm : monoClock s.now s.clock = true)
    (hb : timeBounded d s.clock = true)
    (heq : runMessurementFull d s = some (s2, tr)) :
    FullWindowSpec d s s2 tr ∧
      ∀ p : Nat, runMessurementFull d { s with pulses := p } = some (s2, tr) := by
  have hind : ∀ p : Nat, runMessurementFull d { s with pulses := p } = runMessurementFull d s := by
    intro p; rfl
  refine ⟨?_, fun p => (hind p).trans heq⟩
  simp only [runMessurementFull, millis] at heq
  rcases hc : s.clock with _ | ⟨t0, rest0⟩
  · rw [hc] at heq; simp at heq
  · rw [hc] at heq
    dsimp only at heq
    rw [hc, monoClock_cons] at hm
    obtain ⟨hn0, h0W, hm0⟩ := hm
    rw [hc, timeBounded_cons] at hb
    obtain ⟨hb0, hbrest⟩ := hb
    rcases hw : waitLoop ((t0.time + d * 1000 % W32) % W32) 0 (0 + t0.edges) rest0
        with _ | ⟨tE, pE, restE, logs⟩
    · rw [hw] at heq; simp at heq
    · rw [hw] at heq
      dsimp only at heq
      simp only [Option.some.injEq, Prod.mk.injEq] at heq
      obtain ⟨h1, h2⟩ := heq
      subst h1; subst h2
      obtain ⟨hstop, h0E, hEW, hmE, ⟨consumedW, hsplitW, hpEW⟩, hlogs⟩ :=
        waitLoop_run hm0 hw
      have hmA : d * 1000 % W32 = d * 1000 := Nat.mod_eq_of_lt (by omega)
      have hmB : (t0.time + d * 1000 % W32) % W32 = t0.time + d * 1000 := by
        rw [hmA, Nat.mod_eq_of_lt hb0]
      rw [hmB] at hstop
      refine ⟨t0.time, tE, pE, logs, t0 :: consumedW, by simp, hn0, by omega, hlogs,
        ?_, ?_, rfl, rfl, rfl⟩
      · rw [hc, hsplitW]; dsimp only; simp
      · rw [hpEW]; simp [edgeSum_cons]

/-- Witness for `full_window_correct` at `d = 1` on `exFullSt`. -/
theorem full_window_correct_witness :
    (0 : Nat) < 1 ∧ exFullSt.valveLevel = true ∧
    monoClock exFullSt.now exFullSt.clock = true ∧
    timeBounded 1 exFullSt.clock = true ∧
    ∃ (s2 : St) (tr : List TEv),
      runMessurementFull 1 exFullSt = some (s2, tr) ∧
      FullWindowSpec 1 exFullSt s2 tr := by
  rcases hres : runMessurementFull 1 exFullSt with _ | ⟨s2, tr⟩
  · exact absurd hres (by decide)
  · exact ⟨by decide, by decide, by decide, by decide, s2, tr, rfl,
      (full_window_correct 1 exFullSt s2 tr (by decide) (by decide) (by decide)
        (by decide) hres).1⟩

/-- C2: for every per-cycle duration `d > 0`, with a monotone 32-bit clock
and no `stoptime` overflow, the split-window routine resets the pulse count
exactly once, at the head of the trace, then performs exactly 10 cycles in
order (1-based display indices 1..10), each opening the valve for more than
`d` seconds and closing it, with at least the 2000 ms pause between a close
and the next open and after the tenth close as well; the reported total
equals the number of sensor edges delivered across the entire consumed span,
pauses included, and the result is independent of the incoming pulse
count. -/
theorem split_window_correct (d : Nat) (s s2 : St) (tr : List TEv)
    (hd : 0 < d)
    (hv : s.valveLevel = true)
    (hm : monoClock s.now s.clock = true)
    (hb : timeBounded d s.clock = true)
    (heq : runMessurementSplitted d s = some (s2, tr)) :
    SplitWindowSpec d s s2 tr ∧
      ∀ p : Nat, runMessurementSplitted d { s with pulses := p } = some (s2, tr) := by
  have hind : ∀ p : Nat,
      runMessurementSplitted d { s with pulses := p } = runMessurementSplitted d s := by
    intro p; rfl
  refine ⟨?_, fun p => (hind p).trans heq⟩
  simp only [runMessurementSplitted] at heq
  rcases hcy : cyclesRun d 0 10 { s with pulses := 0 } with _ | ⟨s1, trC⟩
  · rw [hcy] at heq; simp at heq
  · rw [hcy] at heq
    dsimp only at heq
    simp only [Option.some.injEq, Prod.mk.injEq] at heq
    obtain ⟨h1, h2⟩ := heq
    subst h1; subst h2
    obtain ⟨pairs, logss, consumed, htrC, hlen1, hlen2, hsplit, hpul, hprs, hchain,
      hlogss, hdb, hnow, hmono, hzero, hpos, hcond⟩ :=
      cyclesRun_spec d 10 0 { s with pulses := 0 } s1 trC (by dsimp only; exact hm) hcy
    obtain ⟨htime, htbfin⟩ := hcond (by dsimp only; exact hb)
    obtain ⟨hval, hW⟩ := hpos (by omega)
    refine ⟨pairs, logss, consumed, ?_, hlen1, hlen2, ?_, hchain, hlogss, ?_, ?_, hval⟩
    · rw [htrC]
    · intro pr hpr
      obtain ⟨ha, hb2, hc2⟩ := hprs pr hpr
      exact ⟨ha, htime pr hpr, hc2⟩
    · exact hsplit
    · rw [hpul]; dsimp only; omega

set_option maxHeartbeats 2000000 in
/-- Witness for `split_window_correct` at `d = 1` on `exSplitSt`. -/
theorem split_window_correct_witness :
    (0 : Nat) < 1 ∧ exSplitSt.valveLevel = true ∧
    monoClock exSplitSt.now exSplitSt.clock = true ∧
    timeBounded 1 exSplitSt.clock = true ∧
    ∃ (s2 : St) (tr : List TEv),
      runMessurementSplitted 1 exSplitSt = some (s2, tr) ∧
      SplitWindowSpec 1 exSplitSt s2 tr := by
  have hres : runMessurementSplitted 1 exSplitSt =
      some (⟨40, true, 0, 39010, []⟩, [(0, Ev.reset), (0, Ev.display "Running 1 seconds" 0), (0, Ev.log "Splitted measurement starts with 10x 1s"), (5, Ev.display "Cycle: 1" 1), (5, Ev.valveWrite false), (1006, Ev.valveWrite true), (4005, Ev.display "Cycle: 2" 1), (4005, Ev.valveWrite false), (5006, Ev.valveWrite true), (8005, Ev.display "Cycle: 3" 1), (8005, Ev.valveWrite false), (9006, Ev.valveWrite true), (12005, Ev.display "Cycle: 4" 1), (12005, Ev.valveWrite false), (13006, Ev.valveWrite true), (16005, Ev.display "Cycle: 5" 1), (16005, Ev.valveWrite false), (17006, Ev.valveWrite true), (20005, Ev.display "Cycle: 6" 1), (20005, Ev.valveWrite false), (21006, Ev.valveWrite true), (24005, Ev.display "Cycle: 7" 1), (24005, Ev.valveWrite false), (25006, Ev.valveWrite true), (28005, Ev.display "Cycle: 8" 1), (28005, Ev.valveWrite false), (29006, Ev.valveWrite true), (32005, Ev.display "Cycle: 9" 1), (32005, Ev.valveWrite false), (33006, Ev.valveWrite true), (36005, Ev.display "Cycle: 10" 1), (36005, Ev.valveWrite false), (37006, Ev.valveWrite true), (39010, Ev.log "Pulses: 40"), (39010, Ev.display "Pulses" 0), (39010, Ev.display "40" 1)]) := by
    simp [exSplitSt, exSplitClock, runMessurementSplitted, cyclesRun, cycleOnce,
      waitLoop, pauseLoop, millis, usub, W32]
    decide
  exact ⟨by decide, rfl, by decide, by decide, _, _, hres,
    (split_window_correct 1 exSplitSt _ _ (by decide) rfl (by decide) (by decide)
      hres).1⟩

/-- C3 counterexample: two sampled presses of the 1-second button 300 ms
apart (readings 100 and 400, debounce clock at its boot value 0) produce
ZERO accepted MeasurementRequests, not exactly one: the first press is
rejected (100 - 0 ≤ 500) yet refreshes the shared debounce clock to 150, so
the second press is rejected as well (400 - 150 ≤ 500). -/
theorem debounce_two_presses_counterexample :
    loopIter onlyB1 c3St = some (c3Mid, []) ∧
    loopIter onlyB1 c3Mid = some (⟨0, true, 450, 450, []⟩, []) ∧
    c3St.clock.head? = some ⟨100, 0⟩ ∧
    c3Mid.clock.head? = some ⟨400, 0⟩ ∧
    (400 : Nat) - 100 < 500 ∧
    countLog "Button 1s pressed" ([] ++ []) ≠ 1 := by decide

/-- C3 (amended): a press is accepted — emits its `Button .. pressed` log —
iff the 32-bit elapsed time since the shared `DebounceClock` exceeds 500 ms
at its check; consequently two sampled presses of the same button separated
by less than 500 ms produce AT MOST one accepted MeasurementRequest (zero
when the first press is itself rejected, since even a rejected press
refreshes the shared clock), rather than exactly one; and more than 500 ms
of separation does not guarantee two acceptances: concretely, presses of the
10-second button at readings 100 and 700 yield exactly one accepted
request, because the rejected first press refreshed the clock. -/
theorem debounce_amended_behaviour :
    (∀ (label : String) (run : St → Option (St × List TEv)) (s : St) (t : Tick)
        (rest : List Tick) (s2 : St) (tr : List TEv),
        s.clock = t :: rest →
        buttonCheck true label run s = some (s2, tr) →
        ((t.time, Ev.log label) ∈ tr ↔ debounceDelay < usub t.time s.lastDebounceTime)) ∧
    (∀ (s s1 s2 : St) (tr1 tr2 : List TEv) (t1 t2 : Tick),
        monoClock s.now s.clock = true →
        s.clock.head? = some t1 →
        loopIter onlyB1 s = some (s1, tr1) →
        s1.clock.head? = some t2 →
        loopIter onlyB1 s1 = some (s2, tr2) →
        t2.time < t1.time + 500 →
        countLog "Button 1s pressed" (tr1 ++ tr2) ≤ 1) ∧
    (loopIter onlyB10 cGapSt = some (cGapMid, []) ∧
     ∃ (s2 : St) (tr2 : List TEv),
       loopIter onlyB10 cGapMid = some (s2, tr2) ∧
       (700 : Nat) - 100 > 500 ∧
       countLog "Button 10s pressed" ([] ++ tr2) = 1) :=
  ⟨buttonCheck_accept_iff, two_press_at_most_one, by decide,
    ⟨0, true, 10802, 10802, []⟩,
    [(700, Ev.log "Button 10s pressed"), (700, Ev.reset),
     (700, Ev.display "Running " 0), (700, Ev.display "10 seconds" 1),
     (700, Ev.log "Measurement starts with 10s"), (800, Ev.valveWrite false),
     (10801, Ev.valveWrite true), (10801, Ev.log "Pulses: 0"),
     (10801, Ev.display "Pulses" 0), (10801, Ev.display "0" 1)],
    by decide, by decide, by decide⟩

/-- Witness for `debounce_amended_behaviour` on the `c3St` scenario. -/
theorem debounce_amended_behaviour_witness :
    (c3St.clock = ⟨100, 0⟩ :: [⟨150, 0⟩, ⟨400, 0⟩, ⟨450, 0⟩] ∧
     buttonCheck true "Button 1s pressed" (runMessurementSplitted 1) c3St =
       some (c3Mid, []) ∧
     (((100 : Nat), Ev.log "Button 1s pressed") ∈ ([] : List TEv) ↔
        debounceDelay < usub 100 c3St.lastDebounceTime)) ∧
    (monoClock c3St.now c3St.clock = true ∧
     countLog "Button 1s pressed" (([] : List TEv) ++ []) ≤ 1) := by
  constructor
  · refine ⟨rfl, by decide, ?_⟩
    exact debounce_amended_behaviour.1 "Button 1s pressed" (runMessurementSplitted 1)
      c3St ⟨100, 0⟩ [⟨150, 0⟩, ⟨400, 0⟩, ⟨450, 0⟩] c3Mid [] rfl (by decide)
  · refine ⟨by decide, ?_⟩
    exact debounce_amended_behaviour.2.1 c3St c3Mid ⟨0, true, 450, 450, []⟩ [] []
      ⟨100, 0⟩ ⟨400, 0⟩ (by decide) rfl (by decide) rfl (by decide) (by decide)

/-- C4: whenever a pressed button's check block completes, the shared
`DebounceClock` has been refreshed to the reading taken at the end of that
block (`lastDebounceTime = now`), accepted or not; and concretely, a
rejected press of the 1-second button at reading 300 refreshes the clock so
that the 10-second button's press at reading 700 is rejected (empty trace),
whereas the same 700 ms press with no prior 1-second press is accepted. -/
theorem shared_debounce_refresh_and_starvation :
    (∀ (label : String) (run : St → Option (St × List TEv)) (s s2 : St) (tr : List TEv),
        buttonCheck true label run s = some (s2, tr) →
        s2.lastDebounceTime = s2.now) ∧
    (loopIter ⟨true, false, true, false⟩ c4StA = some (⟨0, true, 750, 750, []⟩, []) ∧
     ∃ (sB : St) (trB : List TEv),
       loopIter onlyB10 c4StB = some (sB, trB) ∧
       ((700 : Nat), Ev.log "Button 10s pressed") ∈ trB) := by
  refine ⟨buttonCheck_refresh, by decide, ?_⟩
  exact ⟨⟨0, true, 10712, 10712, []⟩,
    [(700, Ev.log "Button 10s pressed"), (700, Ev.reset),
     (700, Ev.display "Running " 0), (700, Ev.display "10 seconds" 1),
     (700, Ev.log "Measurement starts with 10s"), (710, Ev.valveWrite false),
     (10711, Ev.valveWrite true), (10711, Ev.log "Pulses: 0"),
     (10711, Ev.display "Pulses" 0), (10711, Ev.display "0" 1)],
    by decide, by decide⟩

/-- Witness for `shared_debounce_refresh_and_starvation` on `c4StW`. -/
theorem shared_debounce_refresh_witness :
    buttonCheck true "X" idRun c4StW =
      some (⟨0, true, 601, 601, []⟩, [(600, Ev.log "X")]) ∧
    (⟨0, true, 601, 601, []⟩ : St).lastDebounceTime =
      (⟨0, true, 601, 601, []⟩ : St).now :=
  ⟨by decide, shared_debounce_refresh_and_starvation.1 "X" idRun c4StW
    ⟨0, true, 601, 601, []⟩ [(600, Ev.log "X")] (by decide)⟩

/-- C6 (code bug): in `runMessurementFull 2` started at `millis() = 0`, the
progress guard `millis() / 1000 == previousMillis` fires on every loop pass
while the current second still equals `previousMillis` and never after the
second advances: "Time: 0s" is logged twice within second 0 and no line is
logged for second 1 although the wait runs through it — the spec requires
exactly one line per elapsed second, on its transition. -/
theorem progress_log_repeats_within_second :
    runMessurementFull 2 c6St = some (⟨0, true, 0, 2500, []⟩, c6Tr) ∧
    countLog "Time: 0s" c6Tr = 2 ∧
    countLog "Time: 1s" c6Tr = 0 := by decide

/-- C7: with duration 0 the computed stop time equals the start time, and on
a strictly advancing clock the busy-wait exits at its very first reading:
the routine terminates, opening the valve at the start reading and closing
it at the next reading, then reports the (two readings' worth of) pulses. -/
theorem zero_duration_full_window (s : St) (t0 t1 : Tick) (rest : List Tick)
    (hc : s.clock = t0 :: t1 :: rest)
    (h32 : t0.time < W32)
    (hadv : t0.time < t1.time) :
    (t0.time + 0 * 1000 % W32) % W32 = t0.time ∧
    runMessurementFull 0 s = some
      ({ pulses := t0.edges + t1.edges, valveLevel := true,
         lastDebounceTime := s.lastDebounceTime, now := t1.time, clock := rest },
       [(s.now, Ev.reset),
        (s.now, Ev.display "Running " 0),
        (s.now, Ev.display "0 seconds" 1),
        (s.now, Ev.log "Measurement starts with 0s"),
        (t0.time, Ev.valveWrite false),
        (t1.time, Ev.valveWrite true),
        (t1.time, Ev.log ("Pulses: " ++ toString (t0.edges + t1.edges))),
        (t1.time, Ev.display "Pulses" 0),
        (t1.time, Ev.display (toString (t0.edges + t1.edges)) 1)]) := by
  have hmod : (t0.time + 0 * 1000 % W32) % W32 = t0.time := by
    simp [Nat.mod_eq_of_lt h32]
  refine ⟨hmod, ?_⟩
  simp only [runMessurementFull, millis]
  rw [hc]
  dsimp only
  rw [waitLoop.eq_def]
  dsimp only
  rw [hmod, if_neg (by omega)]
  dsimp only
  simp [hmod]
  exact ⟨rfl, rfl⟩

/-- Witness for `zero_duration_full_window` on `c7St`. -/
theorem zero_duration_full_window_witness :
    c7St.clock = ⟨5, 2⟩ :: ⟨6, 1⟩ :: [] ∧ (5 : Nat) < W32 ∧ (5 : Nat) < 6 ∧
    (((5 : Nat) + 0 * 1000 % W32) % W32 = 5 ∧
     runMessurementFull 0 c7St = some
       (⟨3, true, 0, 6, []⟩,
        [(0, Ev.reset),
         (0, Ev.display "Running " 0),
         (0, Ev.display "0 seconds" 1),
         (0, Ev.log "Measurement starts with 0s"),
         (5, Ev.valveWrite false),
         (6, Ev.valveWrite true),
         (6, Ev.log "Pulses: 3"),
         (6, Ev.display "Pulses" 0),
         (6, Ev.display "3" 1)])) :=
  ⟨rfl, by decide, by decide,
    zero_duration_full_window c7St ⟨5, 2⟩ ⟨6, 1⟩ [] rfl (by decide) (by decide)⟩

/-- C8: after `setup()` the valve output is HIGH (CLOSED) whatever it was
before, the boot trace is exactly: serial init, display init (clear +
backlight), pull-up configuration of the flow-sensor input and all four
button inputs, valve pin as output, the FALLING-edge pulse callback
registered on the flow-meter pin, the valve forced CLOSED, and the "Ready"
banner; and with no button pressed a `loop()` iteration changes nothing and
emits nothing, so no measurement runs until a press requests one. -/
theorem boot_state_ready :
    ∀ s : St,
      (setup s).1.valveLevel = true ∧
      (setup s).2 =
        [(s.now, Ev.serialBegin 9600),
         (s.now, Ev.lcdInit),
         (s.now, Ev.backlight),
         (s.now, Ev.pinMode flowMeterPin PMode.inputPullup),
         (s.now, Ev.pinMode valvePin PMode.output),
         (s.now, Ev.pinMode buttonPin1Second PMode.inputPullup),
         (s.now, Ev.pinMode buttonPin3Second PMode.inputPullup),
         (s.now, Ev.pinMode buttonPin10Second PMode.inputPullup),
         (s.now, Ev.pinMode buttonPin100Second PMode.inputPullup),
         (s.now, Ev.attach flowMeterPin IEdge.falling),
         (s.now, Ev.valveWrite true),
         (s.now, Ev.display "Ready" 0)] ∧
      (∀ s0 : St, loopIter noButtons s0 = some (s0, [])) :=
  fun s => ⟨rfl, rfl, fun s0 => rfl⟩

/-- C9: whatever the button states, a `loop()` iteration's trace decomposes
into the four buttons' blocks in order, and each block is either empty or
the button's own press log followed by the trace of its fixed routine with
its fixed duration — split mode with 1 s, split mode with 3 s, full mode
with 10 s, full mode with 100 s — so no other (mode, duration) pair is
reachable from a button press. -/
theorem button_mapping_fixed (b : Buttons) (s s2 : St) (tr : List TEv)
    (heq : loopIter b s = some (s2, tr)) :
    ∃ trA trB trC trD,
      tr = trA ++ trB ++ trC ++ trD ∧
      BlockShape "Button 1s pressed" (runMessurementSplitted 1) trA ∧
      BlockShape "Button 3s pressed" (runMessurementSplitted 3) trB ∧
      BlockShape "Button 10s pressed" (runMessurementFull 10) trC ∧
      BlockShape "Button 100s pressed" (runMessurementFull 100) trD := by
  unfold loopIter at heq
  rcases hA : buttonCheck b.b1 "Button 1s pressed" (runMessurementSplitted 1) s
      with _ | ⟨sA, trA⟩
  · rw [hA] at heq; simp at heq
  · rw [hA] at heq; dsimp only at heq
    rcases hB : buttonCheck b.b3 "Button 3s pressed" (runMessurementSplitted 3) sA
        with _ | ⟨sB, trB⟩
    · rw [hB] at heq; simp at heq
    · rw [hB] at heq; dsimp only at heq
      rcases hC : buttonCheck b.b10 "Button 10s pressed" (runMessurementFull 10) sB
          with _ | ⟨sC, trC⟩
      · rw [hC] at heq; simp at heq
      · rw [hC] at heq; dsimp only at heq
        rcases hD : buttonCheck b.b100 "Button 100s pressed" (runMessurementFull 100) sC
            with _ | ⟨sD, trD⟩
        · rw [hD] at heq; simp at heq
        · rw [hD] at heq; dsimp only at heq
          simp only [Option.some.injEq, Prod.mk.injEq] at heq
          obtain ⟨h1, h2⟩ := heq
          exact ⟨trA, trB, trC, trD, h2.symm,
            buttonCheck_blockShape _ _ _ _ _ _ hA,
            buttonCheck_blockShape _ _ _ _ _ _ hB,
            buttonCheck_blockShape _ _ _ _ _ _ hC,
            buttonCheck_blockShape _ _ _ _ _ _ hD⟩

/-- Witness for `button_mapping_fixed` on the accepted 10-second press of
`c4StB`. -/
theorem button_mapping_fixed_witness :
    ∃ (s2 : St) (tr : List TEv),
      loopIter onlyB10 c4StB = some (s2, tr) ∧
      ∃ trA trB trC trD,
        tr = trA ++ trB ++ trC ++ trD ∧
        BlockShape "Button 1s pressed" (runMessurementSplitted 1) trA ∧
        BlockShape "Button 3s pressed" (runMessurementSplitted 3) trB ∧
        BlockShape "Button 10s pressed" (runMessurementFull 10) trC ∧
        BlockShape "Button 100s pressed" (runMessurementFull 100) trD := by
  rcases hres : loopIter onlyB10 c4StB with _ | ⟨s2, tr⟩
  · exact absurd hres (by decide)
  · exact ⟨s2, tr, rfl, button_mapping_fixed onlyB10 c4StB s2 tr hres⟩

/-- C10: `stoptime` is `(startTime + seconds * 1000) % 2^32`; with
`startTime = 2^32 - 1` and `seconds = 10` it wraps to 9999, below the start
time, so the busy-wait exits at its first reading and the valve closes at
the very reading it opened at — a hold of 0 ms, far less than the requested
10 s.  The "at least d seconds" hold of C1 is guaranteed only under the
no-overflow hypothesis (`timeBounded`). -/
theorem stoptime_overflow_short_hold :
    (4294967295 + 10 * 1000 % W32) % W32 = 9999 ∧
    (9999 : Nat) < 4294967295 ∧
    runMessurementFull 10 c10St = some (⟨0, true, 0, 4294967295, []⟩, c10Tr) ∧
    (4294967295 : Nat) - 4294967295 < 10 * 1000 := by decide

end Flowmeter
